import Mathlib

/-!
Shallow embedding of the RAG-Synapse backend (Python) in Lean 4, together with
proofs of the specification claims about it.

Conventions of the embedding:
* Python strings are Lean `String`s; the Python string algorithms used by the
  code (`str.lower`, `str.strip`, `str.split`, `str.startswith`, lexicographic
  comparison) are modelled as executable functions on `List Char` (the
  character sequence of the string), restricted to the ASCII behaviour the
  repository relies on.
* Similarity scores and embedding coordinates are `ℚ` (exact rationals) in the
  retrieval pipeline; the normalization step of `config.get_embedding`, which
  genuinely needs a square root, is modelled over `ℝ`.
* External collaborators (the language-model client, the embedding provider,
  the ChromaDB collection) are parameters: functions passed to the embedded
  code, and the vector index is an explicit value of type `Collection`
  (a list of stored chunks) threaded through the state-changing operations.
* Fallible Python code (raising) is modelled with `Except`.
-/

/-! ## Python string primitives (on `List Char`) -/

/-- Characters treated as whitespace by Python's `str.strip()` / `str.split()`
(the ASCII ones). -/
def pyIsSpace (c : Char) : Bool :=
  c = ' ' ∨ c = '\t' ∨ c = '\n' ∨ c = '\r' ∨ c = '\x0b' ∨ c = '\x0c'

/-- Python `str.lower()` (ASCII range, which is all the code relies on). -/
def pyLower (s : List Char) : List Char := s.map Char.toLower

/-- Python `str.strip()`: drop leading and trailing whitespace. -/
def pyStrip (s : List Char) : List Char :=
  ((s.dropWhile pyIsSpace).reverse.dropWhile pyIsSpace).reverse

/-- Python `str.split()` with no separator: split on runs of whitespace,
dropping empty pieces. -/
def pySplit (s : List Char) : List (List Char) :=
  (s.splitOnP pyIsSpace).filter (fun w => w ≠ [])

/-- Python `s.startswith(p)` on character lists. -/
def pyStartsWith : List Char → List Char → Bool
  | _, [] => true
  | [], _ :: _ => false
  | a :: as, b :: bs => a == b && pyStartsWith as bs

/-- Python `<` on strings (lexicographic by code point), as an executable
Boolean on character lists. -/
def pyCharListLt : List Char → List Char → Bool
  | [], [] => false
  | [], _ :: _ => true
  | _ :: _, [] => false
  | a :: as, b :: bs => if a < b then true else if b < a then false else pyCharListLt as bs

/-- Python `a < b` on strings. -/
def pyStrLt (a b : String) : Bool := pyCharListLt a.toList b.toList

/-- Python `a <= b` on strings (what a stable ascending sort by a string key
orders by). -/
def pyStrLe (a b : String) : Bool := !(pyStrLt b a)

/-! ## `backend/routes/chat.py`: greeting detection -/

/-- The fixed greeting phrase list of `is_simple_greeting`
(`backend/routes/chat.py`). -/
def greetings : List String :=
  ["hello", "hi", "hey", "how are you", "how are u", "how're you", "how're u",
   "what's up", "whats up", "greetings", "good morning", "good afternoon",
   "good evening", "good night", "sup", "yo", "hows it going", "how's it going"]

/-- Embedding of `is_simple_greeting` (`backend/routes/chat.py`):
lowercase and strip the query; return `True` on exact membership in
`greetings` or when the query has at most two whitespace-separated tokens;
otherwise return whether the query starts with some greeting. -/
def is_simple_greeting (query : String) : Bool :=
  let query_lower : List Char := pyStrip (pyLower query.toList)
  if greetings.any (fun g => query_lower == g.toList) ∨ (pySplit query_lower).length ≤ 2 then
    true
  else
    greetings.any (fun g => pyStartsWith query_lower g.toList)

/-- Classification rule asserted by the spec sentence for greeting detection
(claim C1), written from the spec's words for comparison with
`is_simple_greeting`: equals a member of the greeting set, or starts with a
member, or has two or fewer whitespace-separated tokens AND matches a member. -/
def claimed_greeting_rule (query : String) : Bool :=
  let l : List Char := pyStrip (pyLower query.toList)
  greetings.any (fun g => l == g.toList) ||
    greetings.any (fun g => pyStartsWith l g.toList) ||
    ((pySplit l).length ≤ 2 && greetings.any (fun g => l == g.toList))

/-! ## `backend/routes/chat.py`: the chat pipeline -/

/-- Payload of a search result, as assembled by
`search_similar_chunks` (`backend/services/vector_store.py`). -/
structure Payload where
  file_name : String
  page : Nat
  chunk_id : Nat
  text : String
  doc_id : String
deriving DecidableEq

/-- One formatted similarity-search result. -/
structure SearchResult where
  id : String
  score : ℚ
  payload : Payload
deriving DecidableEq

/-- One element of the `sources` array of a chat response
(`backend/routes/chat.py`, RAG branch). -/
structure Source where
  file_name : String
  page : Nat
  chunk_id : Nat
  score : ℚ
  text : String
deriving DecidableEq

/-- Return value of the chat endpoint (`backend/models.py`: `ChatResponse`). -/
structure ChatResponse where
  answer : String
  sources : List Source
deriving DecidableEq

/-- System prompt of the greeting branch of `chat`. -/
def greeting_system : String :=
  "You are a friendly and helpful AI assistant. Respond naturally to greetings and casual conversation. Be warm, conversational, and helpful. Keep responses brief and friendly."

/-- System prompt of the no-documents branch of `chat`. -/
def no_documents_system : String :=
  "You are a friendly and helpful AI assistant. You can have normal conversations with users. If they ask about documents, politely let them know they need to upload documents first. Otherwise, be conversational and helpful."

/-- System prompt of the low-relevance branch of `chat`. -/
def low_relevance_system : String :=
  "You are a friendly AI assistant. You have access to uploaded documents, but the current question doesn't seem directly related to them. Answer naturally and helpfully. If appropriate, you can mention that you have documents available if they want to ask about them."

/-- System prompt of the RAG branch of `chat`. -/
def rag_system : String :=
  "You are a helpful assistant that answers questions using information from uploaded documents. Include citations for facts, but be natural and conversational."

/-- Embedding of `max(r['score'] for r in search_results) if search_results
else 0` in `chat`. -/
def maxScore (search_results : List SearchResult) : ℚ :=
  match search_results.map SearchResult.score with
  | [] => 0
  | s :: ss => ss.foldl max s

/-- The source record `chat` builds from one search result
(`sources.append({...})` in the RAG branch). -/
def toSource (r : SearchResult) : Source :=
  { file_name := r.payload.file_name
    page := r.payload.page
    chunk_id := r.payload.chunk_id
    score := r.score
    text := r.payload.text }

/-- One context line `[Source {idx}] (File: ..., Page: ..., Chunk: ...)\n{text}`
of the RAG branch. -/
def contextPart (idx : Nat) (r : SearchResult) : String :=
  "[Source " ++ toString idx ++ "] (File: " ++ r.payload.file_name ++ ", Page: " ++
    toString r.payload.page ++ ", Chunk: " ++ toString r.payload.chunk_id ++ ")\n" ++
    r.payload.text

/-- The `context` string of the RAG branch: the parts joined by blank lines,
with 1-based source numbering. -/
def contextOf (search_results : List SearchResult) : String :=
  String.intercalate "\n\n"
    ((List.enumFrom 1 search_results).map (fun p => contextPart p.1 p.2))

/-- The user prompt of the RAG branch of `chat`. -/
def rag_prompt (search_results : List SearchResult) (query : String) : String :=
  "You are a helpful assistant that answers questions based on the provided context from uploaded documents.\n\nWhen answering:\n1. Use information from the context below to answer the question naturally\n2. Include inline citations for specific facts or information using the format [source:filename | page X | chunk Y]\n3. Be conversational and helpful - don't force citations for every sentence\n4. If the answer is not fully in the context, say what you can from the context\n5. Only cite actual facts, not general conversation\n\nContext from documents:\n"
    ++ contextOf search_results
    ++ "\n\nUser Question: " ++ query
    ++ "\n\nAnswer naturally with citations for facts:"

/-- Embedding of the `chat` endpoint (`backend/routes/chat.py`).
Collaborators are parameters: `llmClient` is `get_llm_client()`'s result
(`none` models the `ValueError` of a missing key, mapped to a 503), applied to
a system prompt and a user message; `embed` is `get_embedding(·, is_query=True)`;
`search` is `search_similar_chunks`.  An `Except.error` carries the HTTP status
code raised. -/
def chat (llmClient : Option (String → String → String))
    (embed : String → Except String (List ℚ))
    (search : List ℚ → Nat → List SearchResult)
    (query : String) (top_k : Nat) : Except Nat ChatResponse :=
  match llmClient with
  | none => .error 503
  | some llm =>
    if is_simple_greeting query then
      .ok { answer := llm greeting_system query, sources := [] }
    else
      match embed query with
      | .error _ => .error 503
      | .ok query_embedding =>
        let search_results := search query_embedding top_k
        if search_results.isEmpty then
          .ok { answer := llm no_documents_system query, sources := [] }
        else
          let max_score := maxScore search_results
          if max_score < 3 / 10 then
            .ok { answer := llm low_relevance_system query, sources := [] }
          else
            .ok { answer := llm rag_system (rag_prompt search_results query),
                  sources := search_results.map toSource }

/-! ## `backend/config.py`: embedding formatting and normalization -/

/-- The instruction text inside the query framing of `get_embedding`
(`backend/config.py`). -/
def query_instruction : String :=
  "Given a web search query, retrieve relevant passages that answer the query"

/-- Instruction template asserted by the spec sentence for claim C7, written
from the spec's words for comparison with `query_instruction`. -/
def claimed_query_instruction : String :=
  "Given a search query, retrieve relevant passages that answer the query"

/-- Embedding of the text-formatting step of `get_embedding`
(`backend/config.py`): with `is_query` the text is wrapped in the fixed
`Instruct:`/`Query:` framing, otherwise passed through raw. -/
def format_for_embedding (text : String) (is_query : Bool) : String :=
  if is_query then "Instruct: " ++ query_instruction ++ "\nQuery: " ++ text
  else text

/-- Whether `pat` occurs as a contiguous subsequence of `s` (used to state
that a template string does or does not appear in a formatted prompt). -/
def containsSub (s pat : List Char) : Bool :=
  (List.range (s.length + 1)).any (fun i => pyStartsWith (s.drop i) pat)

/-- Sum of squares of a real vector (the square of its L2 norm). -/
def sumSq (v : List ℝ) : ℝ := (v.map (fun x => x * x)).sum

/-- L2 norm of a real vector, `np.linalg.norm`. -/
noncomputable def l2norm (v : List ℝ) : ℝ := Real.sqrt (sumSq v)

/-- Embedding of the normalization step of `get_embedding`
(`backend/config.py`): divide by the norm when it is positive, otherwise
return the vector as-is. -/
noncomputable def normalize_embedding (v : List ℝ) : List ℝ :=
  if l2norm v > 0 then v.map (fun x => x / l2norm v) else v

/-- Embedding of `get_embedding` (`backend/config.py`): format the text by
role, call the provider, normalize the raw vector.  The remote provider is the
parameter `provider`. -/
noncomputable def get_embedding (provider : String → List ℝ) (text : String)
    (is_query : Bool) : List ℝ :=
  normalize_embedding (provider (format_for_embedding text is_query))

/-! ## `backend/services/vector_store.py` -/

/-- One chunk record held by the ChromaDB collection: id, vector, metadata
fields, and the document text (`collection.add` in
`process_and_store_document`). -/
structure StoredChunk where
  id : String
  embedding : List ℚ
  doc_id : String
  file_name : String
  page : Nat
  chunk_id : Nat
  upload_timestamp : String
  text : String
deriving DecidableEq

/-- The vector index state: the chunks stored in the ChromaDB collection. -/
abbrev Collection := List StoredChunk

/-- The per-page chunk lists of `process_and_store_document` flattened in
iteration order: page order, then split order within each page.  Each element
is a chunk text paired with its page number. -/
def pageChunks (split : String → List String) (text_pages : List (String × Nat)) :
    List (String × Nat) :=
  (text_pages.map (fun tp => (split tp.1).map (fun c => (c, tp.2)))).flatten

/-- Return value of `process_and_store_document`. -/
structure UploadResult where
  doc_id : String
  chunks_created : Nat
deriving DecidableEq

/-- The embedding loop of `process_and_store_document`: walk the flattened
chunk list, embed each chunk (any failure aborts the whole loop), and build
the batch of records, assigning `chunk_id` from the running counter that
starts at the second argument and increases by one per chunk.  `chunkIds`
supplies the per-chunk `uuid4` ids. -/
def embedChunks (embed : String → Except String (List ℚ)) (chunkIds : Nat → String)
    (doc_id file_name upload_timestamp : String) :
    List (String × Nat) → Nat → Except String (List StoredChunk)
  | [], _ => .ok []
  | (chunk, page) :: rest, chunk_id =>
    match embed chunk with
    | .error e => .error e
    | .ok emb =>
      match embedChunks embed chunkIds doc_id file_name upload_timestamp rest (chunk_id + 1) with
      | .error e => .error e
      | .ok tail =>
        .ok ({ id := chunkIds chunk_id, embedding := emb, doc_id := doc_id,
               file_name := file_name, page := page, chunk_id := chunk_id,
               upload_timestamp := upload_timestamp, text := chunk } :: tail)

/-- Embedding of `process_and_store_document` (`backend/services/vector_store.py`).
`extract` is the outcome of `extract_text` on the uploaded file (an exception
or the page list), `split` is `split_text`, `embed` is
`get_embedding(·, is_query=False)`, `chunkIds` supplies the chunk `uuid4`
values and `doc_id` the document `uuid4`.  Returns the outcome paired with
the collection state after the call; the single `collection.add` of the whole
batch is the only write and happens last. -/
def process_and_store_document (extract : Except String (List (String × Nat)))
    (split : String → List String) (embed : String → Except String (List ℚ))
    (chunkIds : Nat → String) (doc_id file_name upload_timestamp : String)
    (collection : Collection) : Except String UploadResult × Collection :=
  match extract with
  | .error e => (.error e, collection)
  | .ok text_pages =>
    if text_pages.isEmpty then
      (.error "No text could be extracted from the document.", collection)
    else
      match embedChunks embed chunkIds doc_id file_name upload_timestamp
          (pageChunks split text_pages) 0 with
      | .error e => (.error e, collection)
      | .ok records =>
        (.ok { doc_id := doc_id, chunks_created := records.length }, collection ++ records)

/-- Metadata record of one hit in a raw ChromaDB query reply, with the
defaults `search_similar_chunks` applies via `metadata.get(key, default)`
already folded in. -/
structure ChromaMeta where
  file_name : String
  page : Nat
  chunk_id : Nat
  doc_id : String
deriving DecidableEq

/-- Raw reply of `collection.query` for a single query vector: aligned columns
for ids, optional distances, metadatas, and optional document texts. -/
structure ChromaQueryReply where
  ids : List String
  distances : Option (List ℚ)
  metadatas : List ChromaMeta
  documents : Option (List String)

/-- Embedding of the result-formatting part of `search_similar_chunks`
(`backend/services/vector_store.py`): one formatted result per id, with
`score` set to `1 - distance` when the reply carries distances and to `0`
otherwise, and the payload assembled from the metadata and document columns. -/
def search_similar_chunks (reply : ChromaQueryReply) : List SearchResult :=
  if 0 < reply.ids.length then
    (List.range reply.ids.length).map (fun i =>
      let meta := reply.metadatas.getD i { file_name := "", page := 1, chunk_id := 0, doc_id := "" }
      { id := reply.ids.getD i ""
        score := match reply.distances with
                 | some ds => 1 - ds.getD i 0
                 | none => 0
        payload := { file_name := meta.file_name, page := meta.page,
                     chunk_id := meta.chunk_id,
                     text := match reply.documents with
                             | some docs => docs.getD i ""
                             | none => ""
                     doc_id := meta.doc_id } })
  else []

/-- Embedding of `delete_document_chunks` (`backend/services/vector_store.py`):
collect the chunks whose `doc_id` matches, and when there are any, delete by
their ids and report how many ids were collected. -/
def delete_document_chunks (doc_id : String) (collection : Collection) :
    Nat × Collection :=
  let matching := collection.filter (fun c => c.doc_id == doc_id)
  if 0 < matching.length then
    let ids := matching.map StoredChunk.id
    (matching.length, collection.filter (fun c => !(ids.contains c.id)))
  else
    (0, collection)

/-! ## `backend/routes/documents.py` -/

/-- Outcome of the delete-document route: a JSON object modelled as its list
of key/value fields, or a raised `HTTPException`. -/
inductive DeleteOutcome where
  | ok (fields : List (String × String))
  | httpError (status : Nat) (detail : String)
deriving DecidableEq

/-- Embedding of the `DELETE /documents/{doc_id}` route
(`backend/routes/documents.py`): delete the chunks; with a positive count
answer `{"message": f"Deleted {deleted_count} chunks for document {doc_id}"}`,
otherwise raise 404 "Document not found". -/
def delete_document (doc_id : String) (collection : Collection) :
    DeleteOutcome × Collection :=
  let r := delete_document_chunks doc_id collection
  if 0 < r.1 then
    (.ok [("message", "Deleted " ++ toString r.1 ++ " chunks for document " ++ doc_id)], r.2)
  else
    (.httpError 404 "Document not found", r.2)

/-! ## `backend/services/vector_store.py`: `get_all_documents` -/

/-- One entry of the document listing built by `get_all_documents`. -/
structure DocEntry where
  doc_id : String
  file_name : String
  chunks_count : Nat
  upload_timestamp : String
deriving DecidableEq

/-- The per-entry update of one grouping-loop iteration of
`get_all_documents`: on the entry whose `doc_id` matches the chunk's, bump the
count and lower the timestamp to the chunk's when the chunk's is non-empty and
either the entry's is empty or the chunk's sorts strictly below it; leave
every other entry alone. -/
def updateEntry (c : StoredChunk) (e : DocEntry) : DocEntry :=
  if e.doc_id = c.doc_id then
    { e with chunks_count := e.chunks_count + 1,
             upload_timestamp :=
               if c.upload_timestamp ≠ "" ∧
                  (e.upload_timestamp = "" ∨
                    pyStrLt c.upload_timestamp e.upload_timestamp = true)
               then c.upload_timestamp else e.upload_timestamp }
  else e

/-- One full iteration of the grouping loop of `get_all_documents`: skip the
chunk when its `doc_id` is empty, otherwise ensure the entry exists and apply
`updateEntry` (which only touches the entry whose `doc_id` matches). -/
def addChunk (m : List DocEntry) (c : StoredChunk) : List DocEntry :=
  if c.doc_id = "" then m
  else
    let m1 := if m.any (fun e => e.doc_id == c.doc_id) then m
              else m ++ [{ doc_id := c.doc_id, file_name := c.file_name, chunks_count := 0,
                           upload_timestamp := c.upload_timestamp }]
    m1.map (updateEntry c)

/-- Ordered insertion by file name, the building block of the model of
`documents_list.sort(key=lambda x: x['file_name'])`. -/
def insertByName (e : DocEntry) : List DocEntry → List DocEntry
  | [] => [e]
  | x :: xs => if pyStrLe e.file_name x.file_name then e :: x :: xs else x :: insertByName e xs

/-- Insertion sort by file name, modelling Python's ascending `list.sort` with
the file-name key. -/
def sortByName : List DocEntry → List DocEntry
  | [] => []
  | x :: xs => insertByName x (sortByName xs)

/-- Embedding of `get_all_documents` (`backend/services/vector_store.py`):
group the stored chunks by `doc_id` in insertion order, then sort the entries
by file name ascending. -/
def get_all_documents (collection : Collection) : List DocEntry :=
  sortByName (collection.foldl addChunk [])

/-! ## Legacy pipeline (`main.py`, Qdrant-backed) -/

/-- One Qdrant search hit of the legacy `main.py` pipeline: the index natively
reports a similarity `score`. -/
structure QdrantScoredPoint where
  score : ℚ
  payload : Payload
deriving DecidableEq

/-- One element of the legacy chat response's `sources` array (`main.py`). -/
structure LegacySource where
  file_name : String
  page : Nat
  chunk_id : Nat
  score : ℚ
deriving DecidableEq

/-- The source record the legacy `main.py` chat endpoint builds from one
Qdrant hit: the natively reported similarity is attached unconverted. -/
def legacy_source_of (r : QdrantScoredPoint) : LegacySource :=
  { file_name := r.payload.file_name, page := r.payload.page,
    chunk_id := r.payload.chunk_id, score := r.score }

/-- The `sources` array of the legacy `main.py` chat endpoint. -/
def legacy_sources (search_results : List QdrantScoredPoint) : List LegacySource :=
  search_results.map legacy_source_of

/-- Number of stored chunks carrying document id `d` (the size of the group
`get_all_documents` counts for `d`). -/
def docCount (d : String) (col : Collection) : Nat :=
  (col.filter (fun c => c.doc_id == d)).length

/-- The upload timestamps of the stored chunks carrying document id `d`. -/
def docTimes (d : String) (col : Collection) : List String :=
  (col.filter (fun c => c.doc_id == d)).map StoredChunk.upload_timestamp

/-- Invariant of the grouping loop of `get_all_documents`, relating the
accumulated entry list `m` to the chunks `col` processed so far (stated for
collections whose chunks all carry a non-empty `doc_id` and a non-empty
`upload_timestamp`): entries have non-empty pairwise-distinct document ids,
the entries' ids are exactly the ids occurring among the chunks, each entry
counts its group, and each entry's timestamp is a minimal member of its
group's timestamps. -/
def GroupInv (col : Collection) (m : List DocEntry) : Prop :=
  (∀ e ∈ m, e.doc_id ≠ "") ∧
  List.Pairwise (fun a b => a.doc_id ≠ b.doc_id) m ∧
  (∀ d : String, (∃ e ∈ m, e.doc_id = d) ↔ ∃ c ∈ col, c.doc_id = d) ∧
  (∀ e ∈ m, e.chunks_count = docCount e.doc_id col) ∧
  (∀ e ∈ m, e.upload_timestamp ∈ docTimes e.doc_id col ∧
    ∀ t ∈ docTimes e.doc_id col, e.upload_timestamp ≤ t)

/-! ## Concrete fixtures used by witness checks -/

/-- A pre-existing stored chunk of an unrelated document. -/
def sampleChunk : StoredChunk :=
  { id := "z", embedding := [1], doc_id := "other", file_name := "old.pdf",
    page := 1, chunk_id := 0, upload_timestamp := "2024-01-01T00:00:00", text := "old text" }

/-- A sample search-result payload. -/
def samplePayloadA : Payload :=
  { file_name := "a.pdf", page := 1, chunk_id := 0, text := "alpha", doc_id := "da" }

/-- A second sample search-result payload. -/
def samplePayloadB : Payload :=
  { file_name := "b.pdf", page := 2, chunk_id := 1, text := "beta", doc_id := "db" }

/-- Search results with scores `[0.9, 0.4]`. -/
def highResults : List SearchResult :=
  [{ id := "r1", score := 9/10, payload := samplePayloadA },
   { id := "r2", score := 2/5, payload := samplePayloadB }]

/-- Search results with scores `[0.1, 0.05]`. -/
def lowResults : List SearchResult :=
  [{ id := "r1", score := 1/10, payload := samplePayloadA },
   { id := "r2", score := 1/20, payload := samplePayloadB }]

/-- The `i`-th chunk of a sample three-chunk document with `doc_id` `"d"`. -/
def sampleDocChunk (i : Nat) : StoredChunk :=
  { id := "u" ++ toString i, embedding := [1], doc_id := "d", file_name := "w.pdf",
    page := i + 1, chunk_id := i, upload_timestamp := "ts", text := "c" ++ toString i }

/-- A collection holding exactly the three chunks of document `"d"`. -/
def sampleDocCollection : Collection := [sampleDocChunk 0, sampleDocChunk 1, sampleDocChunk 2]

/-- A collection holding two documents with distinct file names: `"d1"`
(two chunks, file `b.txt`) and `"d2"` (one chunk, file `a.txt`). -/
def catalogCollection : Collection :=
  [{ id := "i1", embedding := [], doc_id := "d1", file_name := "b.txt", page := 1,
     chunk_id := 0, upload_timestamp := "2024-01-02T00:00:00", text := "x1" },
   { id := "i2", embedding := [], doc_id := "d1", file_name := "b.txt", page := 1,
     chunk_id := 1, upload_timestamp := "2024-01-01T00:00:00", text := "x2" },
   { id := "i3", embedding := [], doc_id := "d2", file_name := "a.txt", page := 1,
     chunk_id := 0, upload_timestamp := "2024-01-03T00:00:00", text := "x3" }]

/-- A ChromaDB reply that reports distances. -/
def sampleReply : ChromaQueryReply :=
  { ids := ["h1", "h2"], distances := some [0, 1],
    metadatas := [{ file_name := "a.pdf", page := 1, chunk_id := 0, doc_id := "da" },
                  { file_name := "b.pdf", page := 2, chunk_id := 1, doc_id := "db" }],
    documents := some ["alpha", "beta"] }

/-- A ChromaDB reply without a distances column. -/
def sampleReplyNoDist : ChromaQueryReply :=
  { ids := ["h1"], distances := none,
    metadatas := [{ file_name := "a.pdf", page := 1, chunk_id := 0, doc_id := "da" }],
    documents := none }

/-! ## Helper lemmas -/

theorem foldl_max_mem (l : List ℚ) : ∀ s : ℚ, l.foldl max s ∈ s :: l := by
  induction l with
  | nil => intro s; simp
  | cons a t ih =>
    intro s
    have h := ih (max s a)
    rw [List.foldl_cons]
    rcases List.mem_cons.mp h with he | ht
    · rcases max_choice s a with h' | h'
      · exact List.mem_cons.mpr (Or.inl (he.trans h'))
      · exact List.mem_cons.mpr (Or.inr (List.mem_cons.mpr (Or.inl (he.trans h'))))
    · exact List.mem_cons.mpr (Or.inr (List.mem_cons.mpr (Or.inr ht)))

theorem foldl_max_ub (l : List ℚ) : ∀ s x : ℚ, x ∈ s :: l → x ≤ l.foldl max s := by
  induction l with
  | nil => intro s x hx; simp at hx; simp [hx]
  | cons a t ih =>
    intro s x hx
    have step : ∀ y, y ∈ (max s a) :: t → y ≤ List.foldl max (max s a) t := ih (max s a)
    rcases List.mem_cons.mp hx with rfl | hx'
    · exact le_trans (le_max_left x a) (step _ (List.mem_cons_self _ _))
    · rcases List.mem_cons.mp hx' with rfl | hx'' 
      · exact le_trans (le_max_right s x) (step _ (List.mem_cons_self _ _))
      · exact step x (List.mem_cons_of_mem _ hx'')

/-- Claim C1 (counterexample): the two-word query "machine learning" is
classified as a greeting by the code, yet matches no rule of the claimed
classification (it neither equals nor starts with a greeting phrase). -/
theorem greeting_rule_cex :
    is_simple_greeting "machine learning" = true ∧
    claimed_greeting_rule "machine learning" = false := by
  exact ⟨by decide, by decide⟩

/-- Claim C1 (amended): a chat query is classified as a greeting exactly when
its lowercased, trimmed form equals a member of the fixed greeting phrase set,
or starts with a member of that set, or has two or fewer whitespace-separated
tokens (regardless of any match); "hi", "Hello" and "how are you" classify as
greetings while "what is machine learning" does not. -/
theorem greeting_classification :
    (∀ q : String,
        is_simple_greeting q = true ↔
          ((∃ g ∈ greetings, pyStrip (pyLower q.toList) = g.toList) ∨
           (∃ g ∈ greetings, pyStartsWith (pyStrip (pyLower q.toList)) g.toList = true) ∨
           (pySplit (pyStrip (pyLower q.toList))).length ≤ 2)) ∧
    is_simple_greeting "hi" = true ∧
    is_simple_greeting "Hello" = true ∧
    is_simple_greeting "how are you" = true ∧
    is_simple_greeting "what is machine learning" = false := by
  refine ⟨fun q => ?_, by decide, by decide, by decide, by decide⟩
  simp only [is_simple_greeting]
  by_cases h : (greetings.any (fun g => pyStrip (pyLower q.toList) == g.toList) : Prop) ∨
      (pySplit (pyStrip (pyLower q.toList))).length ≤ 2
  · rw [if_pos h]
    simp only [true_iff]
    rcases h with h | h
    · rcases List.any_eq_true.mp h with ⟨g, hg, hh⟩
      exact Or.inl ⟨g, hg, beq_iff_eq.mp hh⟩
    · exact Or.inr (Or.inr h)
  · rw [if_neg h]
    push_neg at h
    obtain ⟨h1, h2⟩ := h
    constructor
    · intro hs
      rcases List.any_eq_true.mp hs with ⟨g, hg, hh⟩
      exact Or.inr (Or.inl ⟨g, hg, hh⟩)
    · rintro (⟨g, hg, he⟩ | ⟨g, hg, hs⟩ | hlen)
      · refine absurd ?_ h1
        exact List.any_eq_true.mpr ⟨g, hg, beq_iff_eq.mpr he⟩
      · exact List.any_eq_true.mpr ⟨g, hg, hs⟩
      · exact absurd hlen (not_le.mpr h2)

/-- Claim C10: every query whose lowercased, trimmed form has at most two
whitespace-separated tokens (including the empty and whitespace-only query)
takes the greeting path of `chat`: the result is the greeting answer with an
empty source list, for any embedding and search collaborators (so neither is
invoked); "machine learning" is such a query even though it neither equals nor
starts with any greeting phrase. -/
theorem short_query_greeting_path :
    (∀ (f : String → String → String) (embed : String → Except String (List ℚ))
       (search : List ℚ → Nat → List SearchResult) (q : String) (k : Nat),
        (pySplit (pyStrip (pyLower q.toList))).length ≤ 2 →
        chat (some f) embed search q k =
          .ok { answer := f greeting_system q, sources := [] }) ∧
    is_simple_greeting "machine learning" = true ∧
    greetings.any (fun g => pyStrip (pyLower "machine learning".toList) == g.toList) = false ∧
    greetings.any (fun g => pyStartsWith (pyStrip (pyLower "machine learning".toList)) g.toList) = false ∧
    is_simple_greeting "" = true ∧
    is_simple_greeting "   " = true := by
  refine ⟨fun f embed search q k h => ?_, by decide, by decide, by decide, by decide, by decide⟩
  have hg : is_simple_greeting q = true := by
    simp only [is_simple_greeting]
    rw [if_pos (Or.inr h)]
  rw [chat, if_pos (by rw [hg])]

/-- Witness for `short_query_greeting_path` at the two-word query
"machine learning", with an embedding collaborator that would fail and an
empty search collaborator. -/
theorem short_query_greeting_path_witness :
    ((pySplit (pyStrip (pyLower "machine learning".toList))).length ≤ 2) ∧
    chat (some (fun _ q => q)) (fun _ => .error "down") (fun _ _ => []) "machine learning" 5 =
      .ok { answer := "machine learning", sources := [] } := by
  refine ⟨by decide, ?_⟩
  exact short_query_greeting_path.1 (fun _ q => q) (fun _ => .error "down") (fun _ _ => [])
    "machine learning" 5 (by decide)

/-- Claim C2: for every non-empty search-result list, when the maximum score
is below the fixed constant 0.3 the chat pipeline answers conversationally
with an empty sources list, and otherwise it enters RAG mode and returns one
source record per search result, in the order of the results (so in the same
score-descending order the results come in), with each source carrying its
result's score. -/
theorem chat_relevance_gate (f : String → String → String) (emb : List ℚ)
    (results : List SearchResult) (q : String) (k : Nat)
    (hq : is_simple_greeting q = false) (hne : results ≠ []) :
    (maxScore results < 3 / 10 →
        chat (some f) (fun _ => .ok emb) (fun _ _ => results) q k =
          .ok { answer := f low_relevance_system q, sources := [] }) ∧
    (¬ maxScore results < 3 / 10 →
        chat (some f) (fun _ => .ok emb) (fun _ _ => results) q k =
          .ok { answer := f rag_system (rag_prompt results q),
                sources := results.map toSource } ∧
        (results.map toSource).map Source.score = results.map SearchResult.score ∧
        (results.map toSource).length = results.length) := by
  have hempty : results.isEmpty = false := by
    cases results with
    | nil => exact absurd rfl hne
    | cons a t => rfl
  constructor
  · intro h
    rw [chat, if_neg (by simp [hq])]
    simp only [hempty, Bool.false_eq_true, if_false, if_pos h]
  · intro h
    refine ⟨?_, ?_, ?_⟩
    · rw [chat, if_neg (by simp [hq])]
      simp only [hempty, Bool.false_eq_true, if_false, if_neg h]
    · simp only [List.map_map]
      exact List.map_congr_left (fun r _ => rfl)
    · simp [List.length_map]

/-- Witness for `chat_relevance_gate`: for scores `[0.1, 0.05]` the sources
are empty, for `[0.9, 0.4]` exactly 2 sources are returned in
descending-score order. -/
theorem chat_relevance_gate_witness :
    (is_simple_greeting "what is machine learning" = false ∧ lowResults ≠ [] ∧
     maxScore lowResults < 3 / 10 ∧
     chat (some (fun s _ => s)) (fun _ => .ok [1]) (fun _ _ => lowResults)
       "what is machine learning" 5 = .ok { answer := low_relevance_system, sources := [] }) ∧
    (highResults ≠ [] ∧ ¬ maxScore highResults < 3 / 10 ∧
     chat (some (fun s _ => s)) (fun _ => .ok [1]) (fun _ _ => highResults)
       "what is machine learning" 5 =
         .ok { answer := rag_system, sources := highResults.map toSource } ∧
     (highResults.map toSource).map Source.score = [9/10, 2/5] ∧
     (highResults.map toSource).length = 2 ∧
     ((2:ℚ)/5 ≤ 9/10)) := by
  have hq : is_simple_greeting "what is machine learning" = false := by decide
  have hlo : maxScore lowResults < 3 / 10 := by
    simp [maxScore, lowResults]
    norm_num [max_eq_left]
  have hhi : ¬ maxScore highResults < 3 / 10 := by
    simp [maxScore, highResults]
    norm_num [max_eq_left]
  refine ⟨⟨hq, by simp [lowResults], hlo, ?_⟩, by simp [highResults], hhi, ?_, by rfl, by rfl, by norm_num⟩
  · exact (chat_relevance_gate (fun s _ => s) [1] lowResults "what is machine learning" 5 hq
      (by simp [lowResults])).1 hlo
  · exact ((chat_relevance_gate (fun s _ => s) [1] highResults "what is machine learning" 5 hq
      (by simp [highResults])).2 hhi).1

/-- Claim C3: whenever `process_and_store_document` fails (extraction failed,
nothing was extractable, or embedding one of the chunks failed), the vector
index is left exactly as it was: the single batched write happens only after
every chunk of every page has been embedded. -/
theorem ingestion_atomicity (extract : Except String (List (String × Nat)))
    (split : String → List String) (embed : String → Except String (List ℚ))
    (chunkIds : Nat → String) (doc_id file_name upload_timestamp : String)
    (collection : Collection) (e : String)
    (h : (process_and_store_document extract split embed chunkIds doc_id file_name
            upload_timestamp collection).1 = .error e) :
    (process_and_store_document extract split embed chunkIds doc_id file_name
        upload_timestamp collection).2 = collection := by
  unfold process_and_store_document at h ⊢
  cases extract with
  | error e' => rfl
  | ok text_pages =>
    cases hp : text_pages.isEmpty with
    | true => simp [hp]
    | false =>
      cases hrec : embedChunks embed chunkIds doc_id file_name upload_timestamp
          (pageChunks split text_pages) 0 with
      | error e' => simp [hp, hrec]
      | ok records => simp [hp, hrec] at h

/-- Witness for `ingestion_atomicity`: an ingestion whose first embedding call
fails leaves the one pre-existing chunk as the whole collection. -/
theorem ingestion_atomicity_witness :
    (process_and_store_document (.ok [("page one text", 1)]) (fun t => [t])
        (fun _ => .error "EmbeddingUnavailable") (fun _ => "cid") "d" "f.pdf" "ts"
        [sampleChunk]).1 = .error "EmbeddingUnavailable" ∧
    (process_and_store_document (.ok [("page one text", 1)]) (fun t => [t])
        (fun _ => .error "EmbeddingUnavailable") (fun _ => "cid") "d" "f.pdf" "ts"
        [sampleChunk]).2 = [sampleChunk] := by
  refine ⟨rfl, ?_⟩
  exact ingestion_atomicity (.ok [("page one text", 1)]) (fun t => [t])
    (fun _ => .error "EmbeddingUnavailable") (fun _ => "cid") "d" "f.pdf" "ts"
    [sampleChunk] "EmbeddingUnavailable" rfl

/-- The embedding loop assigns consecutive `chunk_id` values starting at its
counter argument, in flattened extraction order. -/
theorem embedChunks_chunk_ids (embed : String → Except String (List ℚ))
    (chunkIds : Nat → String) (doc_id file_name upload_timestamp : String) :
    ∀ (l : List (String × Nat)) (k : Nat) (records : List StoredChunk),
      embedChunks embed chunkIds doc_id file_name upload_timestamp l k = .ok records →
      records.map StoredChunk.chunk_id = List.range' k records.length := by
  intro l
  induction l with
  | nil =>
    intro k records h
    simp only [embedChunks, Except.ok.injEq] at h
    subst h
    simp [List.range']
  | cons p t ih =>
    intro k records h
    obtain ⟨chunk, page⟩ := p
    simp only [embedChunks] at h
    cases he : embed chunk with
    | error e => rw [he] at h; simp at h
    | ok emb =>
      rw [he] at h
      cases hr : embedChunks embed chunkIds doc_id file_name upload_timestamp t (k + 1) with
      | error e => rw [hr] at h; simp at h
      | ok tail =>
        rw [hr] at h
        simp only [Except.ok.injEq] at h
        subst h
        simp only [List.map_cons, List.length_cons, ih (k + 1) tail hr]
        rw [List.range'_succ]

/-- Claim C6: the `chunk_id` values of the chunks a successful ingestion
appends to the collection are exactly `0, 1, ..., chunks_created - 1`, in
extraction order (page order, then split order within each page, which is the
order of `pageChunks`). -/
theorem chunk_index_contiguous (extract : Except String (List (String × Nat)))
    (split : String → List String) (embed : String → Except String (List ℚ))
    (chunkIds : Nat → String) (doc_id file_name upload_timestamp : String)
    (collection : Collection) (res : UploadResult)
    (h : (process_and_store_document extract split embed chunkIds doc_id file_name
            upload_timestamp collection).1 = .ok res) :
    (((process_and_store_document extract split embed chunkIds doc_id file_name
        upload_timestamp collection).2).drop collection.length).map StoredChunk.chunk_id =
      List.range res.chunks_created := by
  unfold process_and_store_document at h ⊢
  cases extract with
  | error e => simp at h
  | ok text_pages =>
    cases hp : text_pages.isEmpty with
    | true => simp [hp] at h
    | false =>
      simp only [hp, Bool.false_eq_true, if_false] at h ⊢
      cases hrec : embedChunks embed chunkIds doc_id file_name upload_timestamp
          (pageChunks split text_pages) 0 with
      | error e => rw [hrec] at h; simp at h
      | ok records =>
        simp only [hrec, Except.ok.injEq] at h ⊢
        subst h
        simp only [List.drop_left]
        rw [embedChunks_chunk_ids embed chunkIds doc_id file_name upload_timestamp
          (pageChunks split text_pages) 0 records hrec, List.range_eq_range']

/-- Witness for `chunk_index_contiguous`: a two-page, one-chunk-per-page
ingestion stores chunk indices `[0, 1]`. -/
theorem chunk_index_contiguous_witness :
    (process_and_store_document (.ok [("pa", 1), ("pb", 2)]) (fun t => [t])
        (fun _ => .ok [1]) (fun i => "u" ++ toString i) "d" "f.pdf" "ts" [sampleChunk]).1 =
      .ok { doc_id := "d", chunks_created := 2 } ∧
    (((process_and_store_document (.ok [("pa", 1), ("pb", 2)]) (fun t => [t])
        (fun _ => .ok [1]) (fun i => "u" ++ toString i) "d" "f.pdf" "ts"
        [sampleChunk]).2).drop 1).map StoredChunk.chunk_id = List.range 2 := by
  refine ⟨rfl, ?_⟩
  exact chunk_index_contiguous (.ok [("pa", 1), ("pb", 2)]) (fun t => [t])
    (fun _ => .ok [1]) (fun i => "u" ++ toString i) "d" "f.pdf" "ts" [sampleChunk]
    { doc_id := "d", chunks_created := 2 } rfl

/-- Claim C7 (counterexample): for role=query the code formats the text with
the instruction "Given a web search query, ..."; the template quoted by the
claim, "Given a search query, ...", does not occur anywhere in the text sent
for the query "x". -/
theorem query_instruction_cex :
    format_for_embedding "x" true =
      "Instruct: Given a web search query, retrieve relevant passages that answer the query\nQuery: x" ∧
    containsSub (format_for_embedding "x" true).toList claimed_query_instruction.toList = false := by
  exact ⟨rfl, by decide⟩

/-- Claim C7 (amended): for every text embedded with role=query, the text sent
to the provider is `Instruct: ` ++ the fixed instruction template "Given a web
search query, retrieve relevant passages that answer the query" ++ a newline
and `Query: ` ++ the original text (so the template does occur in the sent
text); for role=document the raw text is sent unmodified. -/
theorem query_prompt_framing :
    (∀ t : String, format_for_embedding t true =
        "Instruct: " ++ query_instruction ++ "\nQuery: " ++ t) ∧
    (∀ t : String, format_for_embedding t false = t) ∧
    query_instruction =
      "Given a web search query, retrieve relevant passages that answer the query" ∧
    containsSub (format_for_embedding "x" true).toList query_instruction.toList = true := by
  exact ⟨fun t => rfl, fun t => rfl, rfl, by decide⟩

theorem sumSq_nonneg (v : List ℝ) : 0 ≤ sumSq v := by
  induction v with
  | nil => simp [sumSq]
  | cons x t ih =>
    simp only [sumSq, List.map_cons, List.sum_cons]
    exact add_nonneg (mul_self_nonneg x) ih

theorem sumSq_div (v : List ℝ) (n : ℝ) :
    sumSq (v.map (fun x => x / n)) = sumSq v / n ^ 2 := by
  induction v with
  | nil => simp [sumSq]
  | cons x t ih =>
    simp only [sumSq, List.map_cons, List.sum_cons] at ih ⊢
    rw [ih]
    ring

/-- Claim C8: when the raw embedding vector has non-zero L2 norm, the vector
`get_embedding` returns has L2 norm exactly 1 (stated over `ℝ`, the
idealization of the floating-point computation); when the norm is zero,
normalization is skipped and the vector is returned as-is. -/
theorem embedding_normalization (v : List ℝ) :
    (l2norm v ≠ 0 → l2norm (normalize_embedding v) = 1) ∧
    (l2norm v = 0 → normalize_embedding v = v) := by
  constructor
  · intro h
    have hnn : 0 ≤ sumSq v := sumSq_nonneg v
    have hpos : 0 < l2norm v := lt_of_le_of_ne (Real.sqrt_nonneg _) (Ne.symm h)
    have hsq : l2norm v ^ 2 = sumSq v := Real.sq_sqrt hnn
    have hssq : 0 < sumSq v := hsq ▸ pow_pos hpos 2
    rw [normalize_embedding, if_pos hpos, l2norm, sumSq_div, hsq,
      div_self (ne_of_gt hssq), Real.sqrt_one]
  · intro h
    rw [normalize_embedding, if_neg]
    rw [h]
    exact lt_irrefl 0

/-- Witness for `embedding_normalization`: the vector `[3, 4]` has norm 5 ≠ 0
and normalizes to a unit vector, while the zero vector `[0]` is returned
unchanged. -/
theorem embedding_normalization_witness :
    (l2norm [(3:ℝ), 4] ≠ 0 ∧ l2norm (normalize_embedding [(3:ℝ), 4]) = 1) ∧
    (l2norm [(0:ℝ)] = 0 ∧ normalize_embedding [(0:ℝ)] = [0]) := by
  have h34 : l2norm [(3:ℝ), 4] ≠ 0 := by
    rw [l2norm]
    refine ne_of_gt (Real.sqrt_pos.mpr ?_)
    norm_num [sumSq]
  have h0 : l2norm [(0:ℝ)] = 0 := by
    simp [l2norm, sumSq]
  exact ⟨⟨h34, (embedding_normalization [3, 4]).1 h34⟩,
         ⟨h0, (embedding_normalization [0]).2 h0⟩⟩

/-- Claim C5: the score of every formatted search result equals
`1 - distance` when the ChromaDB reply carries a distance column and the
constant `0` when it does not; the legacy Qdrant pipeline attaches the
natively reported similarity unconverted; the score field attached to a
source record is exactly the result's score; and the relevance gate's
`max_score` is the maximum of exactly those per-result scores, so the gate
and the reported scores can never diverge for the same result set. -/
theorem score_conversion_uniform :
    (∀ (reply : ChromaQueryReply) (ds : List ℚ) (i : Nat) (r : SearchResult),
        reply.distances = some ds → (search_similar_chunks reply)[i]? = some r →
        r.score = 1 - ds.getD i 0) ∧
    (∀ (reply : ChromaQueryReply) (i : Nat) (r : SearchResult),
        reply.distances = none → (search_similar_chunks reply)[i]? = some r →
        r.score = 0) ∧
    (∀ p : QdrantScoredPoint, (legacy_source_of p).score = p.score) ∧
    (∀ r : SearchResult, (toSource r).score = r.score) ∧
    (∀ results : List SearchResult, results ≠ [] →
        maxScore results ∈ results.map SearchResult.score ∧
        ∀ s ∈ results.map SearchResult.score, s ≤ maxScore results) := by
  have key : ∀ (reply : ChromaQueryReply) (i : Nat) (r : SearchResult),
      (search_similar_chunks reply)[i]? = some r →
      i < reply.ids.length ∧
      r.score = (match reply.distances with
                 | some ds => 1 - ds.getD i 0
                 | none => 0) := by
    intro reply i r h
    rw [search_similar_chunks] at h
    by_cases hn : 0 < reply.ids.length
    · rw [if_pos hn, List.getElem?_map] at h
      by_cases hi : i < reply.ids.length
      · rw [List.getElem?_range hi] at h
        simp only [Option.map_some'] at h
        injection h with h'
        exact ⟨hi, by rw [← h']⟩
      · rw [List.getElem?_eq_none (by simpa [List.length_range] using not_lt.mp hi)] at h
        simp at h
    · rw [if_neg hn] at h
      simp at h
  refine ⟨?_, ?_, fun p => rfl, fun r => rfl, ?_⟩
  · intro reply ds i r hd h
    have := (key reply i r h).2
    rw [hd] at this
    exact this
  · intro reply i r hd h
    have := (key reply i r h).2
    rw [hd] at this
    exact this
  · intro results hne
    cases results with
    | nil => exact absurd rfl hne
    | cons a t =>
      constructor
      · simpa [maxScore] using foldl_max_mem (t.map SearchResult.score) a.score
      · intro s hs
        refine foldl_max_ub (t.map SearchResult.score) a.score s ?_
        simpa [maxScore] using hs

/-- Witness for `score_conversion_uniform`: a reply with distances `[0, 1]`
yields scores `1 - 0` and a reply without distances yields score `0`; on the
concrete results with scores `[0.9, 0.4]` the gate maximum is one of, and an
upper bound of, the attached scores. -/
theorem score_conversion_uniform_witness :
    ((search_similar_chunks sampleReply)[0]? = some
        { id := "h1", score := 1 - ((0 : ℚ)),
          payload := { file_name := "a.pdf", page := 1, chunk_id := 0,
                       text := "alpha", doc_id := "da" } } ∧
      (1 - ((0 : ℚ))) = 1 - ([0, 1] : List ℚ).getD 0 0) ∧
    ((search_similar_chunks sampleReplyNoDist)[0]? = some
        { id := "h1", score := 0,
          payload := { file_name := "a.pdf", page := 1, chunk_id := 0,
                       text := "", doc_id := "da" } } ∧
      ((0 : ℚ)) = 0) ∧
    (highResults ≠ [] ∧ maxScore highResults ∈ highResults.map SearchResult.score ∧
      ∀ s ∈ highResults.map SearchResult.score, s ≤ maxScore highResults) := by
  have h1 : (search_similar_chunks sampleReply)[0]? = some
      { id := "h1", score := 1 - ((0 : ℚ)),
        payload := { file_name := "a.pdf", page := 1, chunk_id := 0,
                     text := "alpha", doc_id := "da" } } := rfl
  have h2 : (search_similar_chunks sampleReplyNoDist)[0]? = some
      { id := "h1", score := 0,
        payload := { file_name := "a.pdf", page := 1, chunk_id := 0,
                     text := "", doc_id := "da" } } := rfl
  have hne : highResults ≠ [] := by simp [highResults]
  have hmax := score_conversion_uniform.2.2.2.2 highResults hne
  exact ⟨⟨h1, score_conversion_uniform.1 sampleReply [0, 1] 0 _ rfl h1⟩,
         ⟨h2, score_conversion_uniform.2.1 sampleReplyNoDist 0 _ rfl h2⟩,
         hne, hmax.1, hmax.2⟩

/-- Claim C4 (counterexample): deleting document `"d"`, whose three chunks are
the whole collection, succeeds and removes all three chunks, but the success
response carries only a `message` field (with the count embedded in its
text) — it has no `deleted_count` field. -/
theorem delete_response_cex :
    (delete_document "d" sampleDocCollection).1 =
      .ok [("message", "Deleted 3 chunks for document d")] ∧
    (match (delete_document "d" sampleDocCollection).1 with
     | .ok fields => fields.all (fun kv => kv.1 ≠ "deleted_count")
     | .httpError _ _ => false) = true ∧
    (delete_document "d" sampleDocCollection).2 = [] := by
  exact ⟨by decide, by decide, by decide⟩

/-- Deleting a document whose chunks were appended to a collection that holds
neither its `doc_id` nor its chunk ids removes exactly the appended chunks. -/
theorem delete_append_fresh (old new : Collection) (d : String)
    (hold : ∀ c ∈ old, c.doc_id ≠ d)
    (hnew : ∀ c ∈ new, c.doc_id = d)
    (hfresh : ∀ c ∈ old, ¬ c.id ∈ new.map StoredChunk.id)
    (hne : new ≠ []) :
    delete_document_chunks d (old ++ new) = (new.length, old) := by
  have hmatch : (old ++ new).filter (fun c => c.doc_id == d) = new := by
    rw [List.filter_append, List.filter_eq_nil_iff.mpr (fun c hc => by simp [hold c hc]),
      List.filter_eq_self.mpr (fun c hc => by simp [hnew c hc]), List.nil_append]
  have hkeepOld : old.filter (fun c => !((new.map StoredChunk.id).contains c.id)) = old :=
    List.filter_eq_self.mpr (fun c hc => by simp [hfresh c hc])
  have hdropNew : new.filter (fun c => !((new.map StoredChunk.id).contains c.id)) = [] :=
    List.filter_eq_nil_iff.mpr (fun c hc => by
      simp [List.mem_map_of_mem StoredChunk.id hc])
  rw [delete_document_chunks]
  simp only [hmatch]
  rw [if_pos (List.length_pos.mpr hne)]
  refine Prod.ext rfl ?_
  simp only []
  rw [List.filter_append, hkeepOld, hdropNew, List.append_nil]

/-- Claim C4 (amended): ingesting a document with 3 extractable pages, each
producing exactly 1 chunk, reports `chunks_created = 3`; deleting that
`doc_id` afterwards removes every chunk whose payload `doc_id` matches
(restoring the prior collection when the document id and chunk ids were
fresh), and the success response is a single message field stating the count
of removed chunks inside its text (there is no separate `deleted_count`
field); a second delete of the same `doc_id` finds no chunks and raises 404
"Document not found", leaving the collection unchanged. -/
theorem upload_delete_round_trip
    (t1 t2 t3 c1 c2 c3 : String) (p1 p2 p3 : Nat)
    (split : String → List String) (embF : String → List ℚ)
    (chunkIds : Nat → String) (doc_id file_name upload_timestamp : String)
    (collection : Collection)
    (h1 : split t1 = [c1]) (h2 : split t2 = [c2]) (h3 : split t3 = [c3])
    (hdoc : ∀ c ∈ collection, c.doc_id ≠ doc_id)
    (hids : ∀ c ∈ collection, c.id ≠ chunkIds 0 ∧ c.id ≠ chunkIds 1 ∧ c.id ≠ chunkIds 2) :
    (process_and_store_document (.ok [(t1, p1), (t2, p2), (t3, p3)]) split
        (fun s => .ok (embF s)) chunkIds doc_id file_name upload_timestamp collection).1 =
      .ok { doc_id := doc_id, chunks_created := 3 } ∧
    delete_document doc_id
        (process_and_store_document (.ok [(t1, p1), (t2, p2), (t3, p3)]) split
          (fun s => .ok (embF s)) chunkIds doc_id file_name upload_timestamp collection).2 =
      (.ok [("message", "Deleted " ++ toString 3 ++ " chunks for document " ++ doc_id)],
        collection) ∧
    delete_document doc_id collection = (.httpError 404 "Document not found", collection) ∧
    (∀ (d : String) (col : Collection) (ch : StoredChunk),
        ch ∈ (delete_document_chunks d col).2 → ch.doc_id ≠ d) := by
  have hpages : pageChunks split [(t1, p1), (t2, p2), (t3, p3)] =
      [(c1, p1), (c2, p2), (c3, p3)] := by
    simp [pageChunks, h1, h2, h3]
  have hrec : embedChunks (fun s => .ok (embF s)) chunkIds doc_id file_name upload_timestamp
      [(c1, p1), (c2, p2), (c3, p3)] 0 = .ok
      [{ id := chunkIds 0, embedding := embF c1, doc_id := doc_id, file_name := file_name,
         page := p1, chunk_id := 0, upload_timestamp := upload_timestamp, text := c1 },
       { id := chunkIds 1, embedding := embF c2, doc_id := doc_id, file_name := file_name,
         page := p2, chunk_id := 1, upload_timestamp := upload_timestamp, text := c2 },
       { id := chunkIds 2, embedding := embF c3, doc_id := doc_id, file_name := file_name,
         page := p3, chunk_id := 2, upload_timestamp := upload_timestamp, text := c3 }] := rfl
  have hproc : process_and_store_document (.ok [(t1, p1), (t2, p2), (t3, p3)]) split
      (fun s => .ok (embF s)) chunkIds doc_id file_name upload_timestamp collection =
      (.ok { doc_id := doc_id, chunks_created := 3 }, collection ++
        [{ id := chunkIds 0, embedding := embF c1, doc_id := doc_id, file_name := file_name,
           page := p1, chunk_id := 0, upload_timestamp := upload_timestamp, text := c1 },
         { id := chunkIds 1, embedding := embF c2, doc_id := doc_id, file_name := file_name,
           page := p2, chunk_id := 1, upload_timestamp := upload_timestamp, text := c2 },
         { id := chunkIds 2, embedding := embF c3, doc_id := doc_id, file_name := file_name,
           page := p3, chunk_id := 2, upload_timestamp := upload_timestamp, text := c3 }]) := by
    rw [process_and_store_document]
    simp only [hpages, hrec, List.isEmpty, Bool.false_eq_true, if_false, List.length_cons,
      List.length_nil]
  have hfilter : collection.filter (fun c => c.doc_id == doc_id) = [] :=
    List.filter_eq_nil_iff.mpr (fun c hc => by simp [hdoc c hc])
  have hdel := delete_append_fresh collection
    [{ id := chunkIds 0, embedding := embF c1, doc_id := doc_id, file_name := file_name,
       page := p1, chunk_id := 0, upload_timestamp := upload_timestamp, text := c1 },
     { id := chunkIds 1, embedding := embF c2, doc_id := doc_id, file_name := file_name,
       page := p2, chunk_id := 1, upload_timestamp := upload_timestamp, text := c2 },
     { id := chunkIds 2, embedding := embF c3, doc_id := doc_id, file_name := file_name,
       page := p3, chunk_id := 2, upload_timestamp := upload_timestamp, text := c3 }]
    doc_id hdoc
    (by intro c hc; simp only [List.mem_cons, List.not_mem_nil, or_false] at hc;
        rcases hc with rfl | rfl | rfl <;> rfl)
    (by intro c hc
        simp only [List.map_cons, List.map_nil, List.mem_cons, List.not_mem_nil, or_false, not_or]
        exact ⟨(hids c hc).1, (hids c hc).2.1, (hids c hc).2.2⟩)
    (by simp)
  refine ⟨by rw [hproc], ?_, ?_, ?_⟩
  · rw [hproc]
    rw [delete_document]
    simp only [hdel]
    rw [if_pos (by norm_num)]
    rfl
  · rw [delete_document, delete_document_chunks]
    simp only [hfilter, List.length_nil, lt_irrefl, if_false]
  · intro d col ch hmem
    rw [delete_document_chunks] at hmem
    by_cases hc : 0 < (col.filter (fun c => c.doc_id == d)).length
    · rw [if_pos hc] at hmem
      obtain ⟨hcol, hkeep⟩ := List.mem_filter.mp hmem
      intro hdd
      have hmem2 : ch ∈ col.filter (fun c => c.doc_id == d) :=
        List.mem_filter.mpr ⟨hcol, by simp [hdd]⟩
      have hid : ch.id ∈ (col.filter (fun c => c.doc_id == d)).map StoredChunk.id :=
        List.mem_map_of_mem StoredChunk.id hmem2
      simp only [Bool.not_eq_true'] at hkeep
      have hcontains : ((col.filter (fun c => c.doc_id == d)).map StoredChunk.id).contains
          ch.id = true := by simp [hid]
      rw [hcontains] at hkeep
      exact Bool.noConfusion hkeep
    · rw [if_neg hc] at hmem
      have hnil : col.filter (fun c => c.doc_id == d) = [] :=
        List.length_eq_zero.mp (Nat.eq_zero_of_not_pos hc)
      have := List.filter_eq_nil_iff.mp hnil ch hmem
      simpa using this

/-- Witness for `upload_delete_round_trip`: the three-page document
`("ta", 1), ("tb", 2), ("tc", 3)` with the identity chunker, ingested on top
of a collection holding one unrelated chunk. -/
theorem upload_delete_round_trip_witness :
    ((fun t : String => [t]) "ta" = ["ta"]) ∧
    (∀ c ∈ [sampleChunk], c.doc_id ≠ "d") ∧
    (process_and_store_document (.ok [("ta", 1), ("tb", 2), ("tc", 3)]) (fun t => [t])
        (fun s => .ok ((fun _ => ([1] : List ℚ)) s)) (fun i => "u" ++ toString i) "d" "f.pdf"
        "ts" [sampleChunk]).1 = .ok { doc_id := "d", chunks_created := 3 } ∧
    delete_document "d"
        (process_and_store_document (.ok [("ta", 1), ("tb", 2), ("tc", 3)]) (fun t => [t])
          (fun s => .ok ((fun _ => ([1] : List ℚ)) s)) (fun i => "u" ++ toString i) "d" "f.pdf"
          "ts" [sampleChunk]).2 =
      (.ok [("message", "Deleted " ++ toString 3 ++ " chunks for document " ++ "d")],
        [sampleChunk]) ∧
    delete_document "d" [sampleChunk] = (.httpError 404 "Document not found", [sampleChunk]) := by
  have main := upload_delete_round_trip "ta" "tb" "tc" "ta" "tb" "tc" 1 2 3
    (fun t => [t]) (fun _ => ([1] : List ℚ)) (fun i => "u" ++ toString i) "d" "f.pdf" "ts"
    [sampleChunk] rfl rfl rfl (by decide) (by decide)
  exact ⟨rfl, by decide, main.1, main.2.1, main.2.2.1⟩

theorem pyCharListLt_iff : ∀ u v : List Char, pyCharListLt u v = true ↔ List.Lex (· < ·) u v := by
  intro u
  induction u with
  | nil =>
    intro v
    cases v with
    | nil =>
      simp only [pyCharListLt, Bool.false_eq_true, false_iff]
      intro h
      cases h
    | cons b bs => simp only [pyCharListLt, true_iff]; exact List.Lex.nil
  | cons a as ih =>
    intro v
    cases v with
    | nil =>
      simp only [pyCharListLt, Bool.false_eq_true, false_iff]
      intro h
      cases h
    | cons b bs =>
      rw [pyCharListLt]
      by_cases hab : a < b
      · rw [if_pos hab]
        simp only [true_iff]
        exact List.Lex.rel hab
      · rw [if_neg hab]
        by_cases hba : b < a
        · rw [if_pos hba]
          simp only [Bool.false_eq_true, false_iff]
          intro h
          cases h with
          | cons h' => exact lt_irrefl _ hba
          | rel h' => exact hab h'
        · rw [if_neg hba]
          have heq : a = b := le_antisymm (not_lt.mp hba) (not_lt.mp hab)
          subst heq
          rw [ih bs]
          constructor
          · exact fun h => List.Lex.cons h
          · intro h
            cases h with
            | cons h' => exact h'
            | rel h' => exact absurd h' hab

theorem pyStrLt_iff (a b : String) : pyStrLt a b = true ↔ a < b := by
  rw [pyStrLt, String.lt_iff_toList_lt]
  exact pyCharListLt_iff a.toList b.toList

theorem pyStrLe_iff (a b : String) : pyStrLe a b = true ↔ a ≤ b := by
  rw [pyStrLe, Bool.not_eq_true']
  constructor
  · intro h
    refine not_lt.mp (fun hlt => ?_)
    rw [(pyStrLt_iff b a).mpr hlt] at h
    exact Bool.noConfusion h
  · intro h
    cases hx : pyStrLt b a with
    | false => rfl
    | true => exact absurd ((pyStrLt_iff b a).mp hx) (not_lt.mpr h)

theorem insertByName_perm (e : DocEntry) : ∀ l : List DocEntry, (insertByName e l).Perm (e :: l) := by
  intro l
  induction l with
  | nil => exact List.Perm.refl _
  | cons x xs ih =>
    rw [insertByName]
    by_cases h : pyStrLe e.file_name x.file_name = true
    · rw [if_pos h]
    · rw [if_neg h]
      exact (ih.cons x).trans (List.Perm.swap e x xs)

theorem sortByName_perm : ∀ l : List DocEntry, (sortByName l).Perm l := by
  intro l
  induction l with
  | nil => exact List.Perm.refl _
  | cons x xs ih =>
    rw [sortByName]
    exact (insertByName_perm x (sortByName xs)).trans (ih.cons x)

theorem insertByName_sorted (e : DocEntry) :
    ∀ l : List DocEntry, List.Pairwise (fun a b => a.file_name ≤ b.file_name) l →
      List.Pairwise (fun a b => a.file_name ≤ b.file_name) (insertByName e l) := by
  intro l
  induction l with
  | nil => intro _; exact List.pairwise_singleton _ _
  | cons x xs ih =>
    intro hp
    rw [insertByName]
    by_cases h : pyStrLe e.file_name x.file_name = true
    · rw [if_pos h]
      refine List.Pairwise.cons ?_ hp
      intro b hb
      have hex : e.file_name ≤ x.file_name := (pyStrLe_iff _ _).mp h
      rcases List.mem_cons.mp hb with rfl | hb'
      · exact hex
      · exact le_trans hex (List.rel_of_pairwise_cons hp hb')
    · rw [if_neg h]
      have hxe : x.file_name ≤ e.file_name := by
        have hne : ¬ e.file_name ≤ x.file_name := fun hle => h ((pyStrLe_iff _ _).mpr hle)
        exact le_of_lt (not_le.mp hne)
      refine List.Pairwise.cons ?_ (ih (List.Pairwise.of_cons hp))
      intro b hb
      have hb2 := (insertByName_perm e xs).mem_iff.mp hb
      rcases List.mem_cons.mp hb2 with rfl | hb'
      · exact hxe
      · exact List.rel_of_pairwise_cons hp hb'

theorem sortByName_sorted :
    ∀ l : List DocEntry, List.Pairwise (fun a b => a.file_name ≤ b.file_name) (sortByName l) := by
  intro l
  induction l with
  | nil => simp [sortByName]
  | cons x xs ih =>
    rw [sortByName]
    exact insertByName_sorted x (sortByName xs) ih

theorem updateEntry_doc_id (c : StoredChunk) (e : DocEntry) :
    (updateEntry c e).doc_id = e.doc_id := by
  rw [updateEntry]
  by_cases h : e.doc_id = c.doc_id
  · rw [if_pos h]
  · rw [if_neg h]

theorem updateEntry_of_ne (c : StoredChunk) (e : DocEntry) (h : e.doc_id ≠ c.doc_id) :
    updateEntry c e = e := by
  rw [updateEntry, if_neg h]

theorem updateEntry_count (c : StoredChunk) (e : DocEntry) (h : e.doc_id = c.doc_id) :
    (updateEntry c e).chunks_count = e.chunks_count + 1 := by
  rw [updateEntry, if_pos h]

theorem updateEntry_ts (c : StoredChunk) (e : DocEntry) (h : e.doc_id = c.doc_id)
    (hct : c.upload_timestamp ≠ "") (het : e.upload_timestamp ≠ "") :
    (updateEntry c e).upload_timestamp =
      if c.upload_timestamp < e.upload_timestamp then c.upload_timestamp
      else e.upload_timestamp := by
  rw [updateEntry, if_pos h]
  by_cases hlt : c.upload_timestamp < e.upload_timestamp
  · rw [if_pos hlt]
    exact if_pos ⟨hct, Or.inr ((pyStrLt_iff _ _).mpr hlt)⟩
  · rw [if_neg hlt]
    refine if_neg ?_
    rintro ⟨-, hor⟩
    rcases hor with he | hps
    · exact het he
    · exact hlt ((pyStrLt_iff _ _).mp hps)

theorem docCount_append_single (d : String) (col : Collection) (c : StoredChunk) :
    docCount d (col ++ [c]) = docCount d col + if c.doc_id = d then 1 else 0 := by
  rw [docCount, docCount, List.filter_append, List.length_append]
  congr 1
  by_cases h : c.doc_id = d
  · simp [h]
  · simp [h]

theorem docTimes_append_single (d : String) (col : Collection) (c : StoredChunk) :
    docTimes d (col ++ [c]) =
      docTimes d col ++ if c.doc_id = d then [c.upload_timestamp] else [] := by
  rw [docTimes, docTimes, List.filter_append, List.map_append]
  congr 1
  by_cases h : c.doc_id = d
  · simp [h]
  · simp [h]

theorem docTimes_ne_empty (d : String) (col : Collection)
    (h : ∀ ch ∈ col, ch.upload_timestamp ≠ "") : ∀ t ∈ docTimes d col, t ≠ "" := by
  intro t ht
  rw [docTimes] at ht
  obtain ⟨ch, hch, rfl⟩ := List.mem_map.mp ht
  exact h ch (List.mem_filter.mp hch).1

theorem addChunk_inv (col : Collection) (m : List DocEntry) (c : StoredChunk)
    (hc : c.doc_id ≠ "") (hct : c.upload_timestamp ≠ "")
    (hcolts : ∀ ch ∈ col, ch.upload_timestamp ≠ "")
    (h : GroupInv col m) : GroupInv (col ++ [c]) (addChunk m c) := by
  obtain ⟨hmne, hpw, hiff, hcnt, hts⟩ := h
  rw [addChunk, if_neg hc]
  by_cases hin : m.any (fun e => e.doc_id == c.doc_id) = true
  · -- an entry for the chunk's doc_id already exists
    rw [if_pos hin]
    have hex : ∃ e ∈ m, e.doc_id = c.doc_id := by
      obtain ⟨e, he, hb⟩ := List.any_eq_true.mp hin
      exact ⟨e, he, by simpa using hb⟩
    refine ⟨?_, ?_, ?_, ?_, ?_⟩
    · intro e' he'
      obtain ⟨e, he, rfl⟩ := List.mem_map.mp he'
      rw [updateEntry_doc_id]
      exact hmne e he
    · refine List.pairwise_map.mpr (hpw.imp ?_)
      intro a b hab
      rw [updateEntry_doc_id, updateEntry_doc_id]
      exact hab
    · intro d
      constructor
      · rintro ⟨e', he', hd⟩
        obtain ⟨e, he, rfl⟩ := List.mem_map.mp he'
        rw [updateEntry_doc_id] at hd
        obtain ⟨ch, hch, hch'⟩ := (hiff d).mp ⟨e, he, hd⟩
        exact ⟨ch, List.mem_append.mpr (Or.inl hch), hch'⟩
      · rintro ⟨ch, hch, hchd⟩
        rcases List.mem_append.mp hch with hch' | hch'
        · obtain ⟨e, he, hed⟩ := (hiff d).mpr ⟨ch, hch', hchd⟩
          exact ⟨updateEntry c e, List.mem_map_of_mem _ he, by rw [updateEntry_doc_id]; exact hed⟩
        · simp only [List.mem_singleton] at hch'
          rw [hch'] at hchd
          obtain ⟨e, he, hed⟩ := hex
          exact ⟨updateEntry c e, List.mem_map_of_mem _ he,
            by rw [updateEntry_doc_id]; rw [hed, hchd]⟩
    · intro e' he'
      obtain ⟨e, he, rfl⟩ := List.mem_map.mp he'
      rw [updateEntry_doc_id, docCount_append_single]
      by_cases hd : e.doc_id = c.doc_id
      · rw [updateEntry_count c e hd, if_pos hd.symm, hcnt e he]
      · rw [updateEntry_of_ne c e hd, if_neg (fun heq => hd heq.symm), Nat.add_zero]
        exact hcnt e he
    · intro e' he'
      obtain ⟨e, he, rfl⟩ := List.mem_map.mp he'
      rw [updateEntry_doc_id, docTimes_append_single]
      by_cases hd : e.doc_id = c.doc_id
      · rw [if_pos hd.symm]
        obtain ⟨hmem, hlb⟩ := hts e he
        have het : e.upload_timestamp ≠ "" := docTimes_ne_empty _ col hcolts _ hmem
        rw [updateEntry_ts c e hd hct het]
        by_cases hlt : c.upload_timestamp < e.upload_timestamp
        · rw [if_pos hlt]
          constructor
          · exact List.mem_append.mpr (Or.inr (by simp))
          · intro t ht
            rcases List.mem_append.mp ht with h1 | h1
            · exact le_trans (le_of_lt hlt) (hlb t h1)
            · simp only [List.mem_singleton] at h1
              rw [h1]
        · rw [if_neg hlt]
          constructor
          · exact List.mem_append.mpr (Or.inl hmem)
          · intro t ht
            rcases List.mem_append.mp ht with h1 | h1
            · exact hlb t h1
            · simp only [List.mem_singleton] at h1
              rw [h1]
              exact not_lt.mp hlt
      · rw [updateEntry_of_ne c e hd, if_neg (fun heq => hd heq.symm), List.append_nil]
        exact hts e he
  · -- the chunk's doc_id is new: an entry is appended
    rw [if_neg hin]
    have hnotin : ∀ e ∈ m, e.doc_id ≠ c.doc_id := by
      intro e he heq
      exact hin (List.any_eq_true.mpr ⟨e, he, by simp [heq]⟩)
    have hnewcol : ¬ ∃ ch ∈ col, ch.doc_id = c.doc_id := by
      intro hex
      obtain ⟨e, he, heq⟩ := (hiff c.doc_id).mpr hex
      exact hnotin e he heq
    have hcount0 : docCount c.doc_id col = 0 := by
      rw [docCount, List.filter_eq_nil_iff.mpr ?_]
      · rfl
      · intro ch hch
        simp only [beq_iff_eq]
        exact fun heq => hnewcol ⟨ch, hch, heq⟩
    have htimes0 : docTimes c.doc_id col = [] := by
      rw [docTimes, List.filter_eq_nil_iff.mpr ?_]
      · rfl
      · intro ch hch
        simp only [beq_iff_eq]
        exact fun heq => hnewcol ⟨ch, hch, heq⟩
    refine ⟨?_, ?_, ?_, ?_, ?_⟩
    · intro e' he'
      obtain ⟨e, he, rfl⟩ := List.mem_map.mp he'
      rw [updateEntry_doc_id]
      rcases List.mem_append.mp he with hem | he0
      · exact hmne e hem
      · simp only [List.mem_singleton] at he0
        subst he0
        exact hc
    · refine List.pairwise_map.mpr (?_ : List.Pairwise _ (m ++ _))
      refine List.pairwise_append.mpr ⟨hpw.imp ?_, ?_, ?_⟩
      · intro a b hab
        rw [updateEntry_doc_id, updateEntry_doc_id]
        exact hab
      · exact List.pairwise_singleton _ _
      · intro a ha b hb
        simp only [List.mem_singleton] at hb
        subst hb
        rw [updateEntry_doc_id, updateEntry_doc_id]
        exact hnotin a ha
    · intro d
      constructor
      · rintro ⟨e', he', hd⟩
        obtain ⟨e, he, rfl⟩ := List.mem_map.mp he'
        rw [updateEntry_doc_id] at hd
        rcases List.mem_append.mp he with hem | he0
        · obtain ⟨ch, hch, hch'⟩ := (hiff d).mp ⟨e, hem, hd⟩
          exact ⟨ch, List.mem_append.mpr (Or.inl hch), hch'⟩
        · simp only [List.mem_singleton] at he0
          subst he0
          exact ⟨c, List.mem_append.mpr (Or.inr (by simp)), hd⟩
      · rintro ⟨ch, hch, hchd⟩
        rcases List.mem_append.mp hch with hch' | hch'
        · obtain ⟨e, he, hed⟩ := (hiff d).mpr ⟨ch, hch', hchd⟩
          exact ⟨updateEntry c e, List.mem_map_of_mem _ (List.mem_append.mpr (Or.inl he)),
            by rw [updateEntry_doc_id]; exact hed⟩
        · simp only [List.mem_singleton] at hch'
          rw [hch'] at hchd
          refine ⟨updateEntry c { doc_id := c.doc_id, file_name := c.file_name, chunks_count := 0, upload_timestamp := c.upload_timestamp }, List.mem_map_of_mem _ (List.mem_append.mpr (Or.inr (by simp))), ?_⟩
          rw [updateEntry_doc_id]
          exact hchd
    · intro e' he'
      obtain ⟨e, he, rfl⟩ := List.mem_map.mp he'
      rw [updateEntry_doc_id, docCount_append_single]
      rcases List.mem_append.mp he with hem | he0
      · have hd : e.doc_id ≠ c.doc_id := hnotin e hem
        rw [updateEntry_of_ne c e hd, if_neg (fun heq => hd heq.symm), Nat.add_zero]
        exact hcnt e hem
      · simp only [List.mem_singleton] at he0
        subst he0
        rw [updateEntry_count c _ rfl, if_pos rfl]
        simp only [hcount0]
    · intro e' he'
      obtain ⟨e, he, rfl⟩ := List.mem_map.mp he'
      rw [updateEntry_doc_id, docTimes_append_single]
      rcases List.mem_append.mp he with hem | he0
      · have hd : e.doc_id ≠ c.doc_id := hnotin e hem
        rw [updateEntry_of_ne c e hd, if_neg (fun heq => hd heq.symm), List.append_nil]
        exact hts e hem
      · simp only [List.mem_singleton] at he0
        subst he0
        rw [updateEntry_ts c _ rfl hct hct, if_neg (lt_irrefl _), if_pos rfl, htimes0,
          List.nil_append]
        constructor
        · simp
        · intro t ht
          simp only [List.mem_singleton] at ht
          rw [ht]

theorem groupInv_nil : GroupInv [] [] := by
  refine ⟨?_, ?_, ?_, ?_, ?_⟩ <;> simp [GroupInv]

theorem foldl_addChunk_inv :
    ∀ (rest col : Collection) (m : List DocEntry),
      (∀ ch ∈ rest, ch.doc_id ≠ "" ∧ ch.upload_timestamp ≠ "") →
      (∀ ch ∈ col, ch.upload_timestamp ≠ "") →
      GroupInv col m → GroupInv (col ++ rest) (rest.foldl addChunk m) := by
  intro rest
  induction rest with
  | nil =>
    intro col m _ _ h
    simpa using h
  | cons c cs ih =>
    intro col m hrest hcol h
    rw [List.foldl_cons]
    have hc := hrest c (List.mem_cons_self _ _)
    have step := addChunk_inv col m c hc.1 hc.2 hcol h
    have hcol' : ∀ ch ∈ col ++ [c], ch.upload_timestamp ≠ "" := by
      intro ch hch
      rcases List.mem_append.mp hch with h' | h'
      · exact hcol ch h'
      · simp only [List.mem_singleton] at h'
        rw [h']
        exact hc.2
    have := ih (col ++ [c]) (addChunk m c)
      (fun ch hch => hrest ch (List.mem_cons_of_mem _ hch)) hcol' step
    simpa [List.append_assoc] using this

/-- Claim C9: for every collection whose chunks all carry a non-empty
`doc_id` and a non-empty `upload_timestamp`, the document listing has
pairwise-distinct document ids, its ids are exactly the distinct `doc_id`
values among the stored chunks (so exactly one entry per distinct `doc_id`),
each entry's `chunks_count` is the number of chunks in its group, each entry's
`upload_timestamp` is the earliest timestamp seen in its group (a member of
the group's timestamps that bounds them all from below), and the listing is
sorted by file name ascending. -/
theorem get_all_documents_spec (col : Collection)
    (hid : ∀ c ∈ col, c.doc_id ≠ "") (hts : ∀ c ∈ col, c.upload_timestamp ≠ "") :
    List.Pairwise (fun a b => a.doc_id ≠ b.doc_id) (get_all_documents col) ∧
    (∀ d : String,
        (∃ e ∈ get_all_documents col, e.doc_id = d) ↔ ∃ c ∈ col, c.doc_id = d) ∧
    (∀ e ∈ get_all_documents col, e.chunks_count = docCount e.doc_id col) ∧
    (∀ e ∈ get_all_documents col,
        e.upload_timestamp ∈ docTimes e.doc_id col ∧
        ∀ t ∈ docTimes e.doc_id col, e.upload_timestamp ≤ t) ∧
    List.Pairwise (fun a b => a.file_name ≤ b.file_name) (get_all_documents col) := by
  have hinv := foldl_addChunk_inv col [] []
    (fun ch hch => ⟨hid ch hch, hts ch hch⟩) (by simp) groupInv_nil
  rw [List.nil_append] at hinv
  obtain ⟨h1, h2, h3, h4, h5⟩ := hinv
  have hperm := sortByName_perm (col.foldl addChunk [])
  rw [get_all_documents]
  refine ⟨?_, ?_, ?_, ?_, sortByName_sorted _⟩
  · exact (hperm.pairwise_iff (fun hab => Ne.symm hab)).mpr h2
  · intro d
    rw [← h3 d]
    constructor
    · rintro ⟨e, he, hd⟩
      exact ⟨e, hperm.mem_iff.mp he, hd⟩
    · rintro ⟨e, he, hd⟩
      exact ⟨e, hperm.mem_iff.mpr he, hd⟩
  · intro e he
    exact h4 e (hperm.mem_iff.mp he)
  · intro e he
    exact h5 e (hperm.mem_iff.mp he)

/-- Witness for `get_all_documents_spec`: on a collection with two documents
(`d1` with two chunks of file `b.txt`, `d2` with one chunk of file `a.txt`)
the listing has exactly 2 entries, sorted lexicographically by file name, with
chunk counts 2 and 1 and the earliest timestamp per group. -/
theorem get_all_documents_spec_witness :
    (∀ c ∈ catalogCollection, c.doc_id ≠ "") ∧
    (∀ c ∈ catalogCollection, c.upload_timestamp ≠ "") ∧
    get_all_documents catalogCollection =
      [{ doc_id := "d2", file_name := "a.txt", chunks_count := 1,
         upload_timestamp := "2024-01-03T00:00:00" },
       { doc_id := "d1", file_name := "b.txt", chunks_count := 2,
         upload_timestamp := "2024-01-01T00:00:00" }] ∧
    (get_all_documents catalogCollection).length = 2 ∧
    List.Pairwise (fun a b => a.doc_id ≠ b.doc_id) (get_all_documents catalogCollection) ∧
    (∀ e ∈ get_all_documents catalogCollection,
        e.chunks_count = docCount e.doc_id catalogCollection) ∧
    List.Pairwise (fun a b => a.file_name ≤ b.file_name)
      (get_all_documents catalogCollection) := by
  have hid : ∀ c ∈ catalogCollection, c.doc_id ≠ "" := by decide
  have hts : ∀ c ∈ catalogCollection, c.upload_timestamp ≠ "" := by decide
  have main := get_all_documents_spec catalogCollection hid hts
  exact ⟨hid, hts, by decide, by decide, main.1, main.2.2.1, main.2.2.2.2⟩
